import Mathlib

/-!
Verification of the bot-server orchestrator (`src/bot-server/app.py`).

The development shallowly embeds the three core operations of the
orchestrator:

* `identify_application` (app.py lines 71-140): keyword fast-path over the
  lower-cased input, then a single zero-temperature completion call whose
  response is stripped of non-lowercase letters and re-matched;
* `apply_configuration_change` (app.py lines 142-221): prompt construction
  from the schema and values documents, then extraction of a JSON object
  from the completion by slicing from the first opening brace to the last
  closing brace and parsing the slice;
* `handle_message` (app.py lines 223-287): the `POST /message` pipeline
  with its 400/404/500 error mapping.

JSON documents are modelled by the inductive type `JVal`.  `jparse` models
Python's `json.loads` on the fragment the system exchanges: null, booleans,
integer numerals, strings (with the standard escape sequences), arrays and
objects.  Float numerals, `NaN` and `Infinity` are outside the model (IEEE
floats are not shallowly embeddable); lone surrogate escapes map to U+0000
and duplicate object keys are kept in order rather than overwritten - none
of these corners are exercised by the properties below.  Outbound HTTP
traffic is modelled by oracles: an `LLMOutcome` for each completion call
and a `StoreResult` for each store lookup, together with a `Trace`
recording which outbound calls a request performed.
-/

/-- JSON values as exchanged by the services (integer-numeral fragment). -/
inductive JVal where
  | null
  | bool (b : Bool)
  | num (n : Int)
  | str (s : String)
  | arr (xs : List JVal)
  | obj (fields : List (String × JVal))
deriving Repr

/-- Python `json` whitespace: space, tab, newline, carriage return. -/
def jWsB (c : Char) : Bool :=
  c == ' ' || c == '\t' || c == '\n' || c == '\r'

/-- Drop leading JSON whitespace. -/
def skipWs (cs : List Char) : List Char :=
  cs.dropWhile jWsB

/-- Value of a decimal digit character, if any. -/
def digitVal? (c : Char) : Option Nat :=
  if '0' ≤ c && c ≤ '9' then some (c.toNat - 48) else none

/-- Value of a hexadecimal digit character, if any. -/
def hexVal? (c : Char) : Option Nat :=
  if '0' ≤ c && c ≤ '9' then some (c.toNat - 48)
  else if 'a' ≤ c && c ≤ 'f' then some (c.toNat - 87)
  else if 'A' ≤ c && c ≤ 'F' then some (c.toNat - 55)
  else none

/-- Does `pat` occur at the head of the list? -/
def leadsWith : List Char → List Char → Bool
  | [], _ => true
  | _ :: _, [] => false
  | p :: ps, c :: cs => p == c && leadsWith ps cs

/-- Python's substring test `pat in hay` on character lists. -/
def occursIn (pat : List Char) : List Char → Bool
  | [] => leadsWith pat []
  | c :: cs => leadsWith pat (c :: cs) || occursIn pat cs

/-- Split off a maximal run of decimal digits. -/
def takeDigits : List Char → (List Nat × List Char)
  | [] => ([], [])
  | c :: cs =>
    match digitVal? c with
    | some d => let (ds, r) := takeDigits cs; (d :: ds, r)
    | none => ([], c :: cs)

/-- Decimal value of a digit list. -/
def natOfDigits (ds : List Nat) : Nat :=
  ds.foldl (fun a d => a * 10 + d) 0

/-- Integer numeral per the `json` module's number grammar, restricted to
integers: optional minus, then `0` or a nonzero-led digit run; a following
`.`, `e` or `E` (a float numeral) is outside the model and rejected. -/
def parseIntNum (cs : List Char) : Option (Int × List Char) :=
  let (neg, cs1) : Bool × List Char :=
    match cs with
    | '-' :: t => (true, t)
    | _ => (false, cs)
  match cs1 with
  | [] => none
  | c :: _ =>
    match digitVal? c with
    | none => none
    | some _ =>
      let (intDigits, rest) : List Nat × List Char :=
        match cs1 with
        | '0' :: t => ([0], t)
        | _ => takeDigits cs1
      let v : Int := if neg then -(natOfDigits intDigits : Int) else (natOfDigits intDigits : Int)
      match rest with
      | [] => some (v, [])
      | d :: _ => if d == '.' || d == 'e' || d == 'E' then none else some (v, rest)

/-- String body parser (after the opening quote), per `json.loads` in strict
mode: raw control characters are rejected, the eight short escapes and
`\uXXXX` are decoded.  Fuel decreases with every consumed character, so
`length + 1` fuel always suffices. -/
def parseLitStr : Nat → List Char → Option (List Char × List Char)
  | 0, _ => none
  | _, [] => none
  | fuel + 1, c :: cs =>
    if c == '"' then some ([], cs)
    else if c == '\\' then
      match cs with
      | [] => none
      | e :: cs' =>
        let esc? : Option (Char × List Char) :=
          if e == '"' then some ('"', cs')
          else if e == '\\' then some ('\\', cs')
          else if e == '/' then some ('/', cs')
          else if e == 'b' then some ('\x08', cs')
          else if e == 'f' then some ('\x0c', cs')
          else if e == 'n' then some ('\n', cs')
          else if e == 'r' then some ('\r', cs')
          else if e == 't' then some ('\t', cs')
          else if e == 'u' then
            match cs' with
            | h1 :: h2 :: h3 :: h4 :: cs'' =>
              match hexVal? h1, hexVal? h2, hexVal? h3, hexVal? h4 with
              | some a, some b, some c2, some d =>
                some (Char.ofNat (((a * 16 + b) * 16 + c2) * 16 + d), cs'')
              | _, _, _, _ => none
            | _ => none
          else none
        match esc? with
        | some (ch, rest) => (parseLitStr fuel rest).map (fun p => (ch :: p.1, p.2))
        | none => none
    else if c.toNat < 32 then none
    else (parseLitStr fuel cs).map (fun p => (c :: p.1, p.2))

mutual

/-- Recursive-descent JSON value parser modelling `json.loads`; returns the
parsed value and the unconsumed remainder.  Fuel only bounds recursion
depth; `jparse` supplies enough for any input. -/
def parseVal : Nat → List Char → Option (JVal × List Char)
  | 0, _ => none
  | fuel + 1, cs =>
    match skipWs cs with
    | [] => none
    | c :: rest =>
      if c == '\x7b' then parseObjBody fuel rest
      else if c == '[' then parseArrBody fuel rest
      else if c == '"' then
        (parseLitStr (rest.length + 1) rest).map (fun p => (.str (String.mk p.1), p.2))
      else if c == 't' then
        if leadsWith "rue".toList rest then some (.bool true, rest.drop 3) else none
      else if c == 'f' then
        if leadsWith "alse".toList rest then some (.bool false, rest.drop 4) else none
      else if c == 'n' then
        if leadsWith "ull".toList rest then some (.null, rest.drop 3) else none
      else if c == '-' || (digitVal? c).isSome then
        (parseIntNum (c :: rest)).map (fun p => (.num p.1, p.2))
      else none

/-- Object body, positioned just after the opening brace. -/
def parseObjBody : Nat → List Char → Option (JVal × List Char)
  | 0, _ => none
  | fuel + 1, cs =>
    match skipWs cs with
    | '\x7d' :: rest => some (.obj [], rest)
    | cs' => (parseMembers fuel cs').map (fun p => (.obj p.1, p.2))

/-- One or more `"key": value` members, positioned at a key's quote. -/
def parseMembers : Nat → List Char → Option (List (String × JVal) × List Char)
  | 0, _ => none
  | fuel + 1, cs =>
    match cs with
    | '"' :: rest =>
      match parseLitStr (rest.length + 1) rest with
      | none => none
      | some (k, r1) =>
        match skipWs r1 with
        | ':' :: r2 =>
          match parseVal fuel r2 with
          | none => none
          | some (v, r3) =>
            match skipWs r3 with
            | ',' :: r4 =>
              (parseMembers fuel (skipWs r4)).map
                (fun p => ((String.mk k, v) :: p.1, p.2))
            | '\x7d' :: r4 => some ([(String.mk k, v)], r4)
            | _ => none
        | _ => none
    | _ => none

/-- Array body, positioned just after the opening bracket. -/
def parseArrBody : Nat → List Char → Option (JVal × List Char)
  | 0, _ => none
  | fuel + 1, cs =>
    match skipWs cs with
    | ']' :: rest => some (.arr [], rest)
    | cs' => (parseElems fuel cs').map (fun p => (.arr p.1, p.2))

/-- One or more array elements. -/
def parseElems : Nat → List Char → Option (List JVal × List Char)
  | 0, _ => none
  | fuel + 1, cs =>
    match parseVal fuel cs with
    | none => none
    | some (v, r1) =>
      match skipWs r1 with
      | ',' :: r2 => (parseElems fuel r2).map (fun p => (v :: p.1, p.2))
      | ']' :: r2 => some ([v], r2)
      | _ => none

end

/-- Model of Python's `json.loads`: parse one value and require only
whitespace to remain, otherwise fail with an error message. -/
def jparse (s : String) : Except String JVal :=
  match parseVal (2 * s.toList.length + 4) s.toList with
  | some (v, rest) => if (skipWs rest).isEmpty then .ok v else .error "Extra data"
  | none => .error "Expecting value"

/-- Python `str.strip()` whitespace (ASCII fragment). -/
def pyWsB (c : Char) : Bool :=
  c == ' ' || c == '\t' || c == '\n' || c == '\r' || c == '\x0b' || c == '\x0c'

/-- Python `str.strip()`: remove leading and trailing whitespace. -/
def pyStrip (cs : List Char) : List Char :=
  ((cs.dropWhile pyWsB).reverse.dropWhile pyWsB).reverse

/-- Python `str.lower()` (ASCII fragment): map A-Z to a-z. -/
def pyLower (cs : List Char) : List Char :=
  cs.map (fun c => if 'A' ≤ c && c ≤ 'Z' then Char.ofNat (c.toNat + 32) else c)

/-- Python `str.find(ch)`: index of the first occurrence, if any. -/
def findIdxCh (x : Char) : List Char → Option Nat
  | [] => none
  | c :: cs => if c == x then some 0 else (findIdxCh x cs).map (· + 1)

/-- Python `str.rfind(ch)`: index of the last occurrence, if any. -/
def rfindIdxCh (x : Char) : List Char → Option Nat
  | [] => none
  | c :: cs =>
    match rfindIdxCh x cs with
    | some i => some (i + 1)
    | none => if c == x then some 0 else none

/-- The closed enumeration of application identifiers. -/
inductive AppName where
  | chat
  | matchmaking
  | tournament
deriving Repr, DecidableEq

/-- The identifier as the string used in URLs and messages. -/
def appStr : AppName → String
  | .chat => "chat"
  | .matchmaking => "matchmaking"
  | .tournament => "tournament"

/-- Generation options sent with a completion call (app.py lines 108-111 and
186-189): temperature and `num_predict`. -/
structure GenOptions where
  temperature : ℚ
  num_predict : Nat
deriving Repr, DecidableEq

/-- One outbound completion call: model name, prompt, options. -/
structure GenCall where
  model : String
  prompt : String
  options : GenOptions
deriving Repr, DecidableEq

/-- Outcome oracle for one completion call: `ok` carries the completion's
`response` field (missing field read as `""` via `result.get`), `httpError`
a non-200 status, and `transportError` any raised exception (unreachable
host, timeout, undecodable response body). -/
inductive LLMOutcome where
  | ok (response : String)
  | httpError (status : Nat)
  | transportError (msg : String)
deriving Repr, DecidableEq

/-- The classification prompt (app.py lines 95-99). -/
def classifyPrompt (user_input : String) : String :=
  "Identify the application from this request. Only respond with one word: chat, matchmaking, or tournament.\n\nRequest: " ++ user_input ++ "\n\nAnswer (one word only):"

/-- Keyword priority match used on line 83-91 and again on lines 122-130:
ordered substring checks tournament, then matchmaking, then chat. -/
def priorityMatch (s : List Char) : Option AppName :=
  if occursIn "tournament".toList s then some .tournament
  else if occursIn "matchmaking".toList s then some .matchmaking
  else if occursIn "chat".toList s then some .chat
  else none

/-- Python `re.sub(r'[^a-z]', '', s)`: keep only lowercase ASCII letters. -/
def keepLowerAlpha (cs : List Char) : List Char :=
  cs.filter (fun c => 'a' ≤ c && c ≤ 'z')

/-- Embedding of `identify_application` (app.py lines 71-140).  Returns the
resolved identifier (or `none` for "not identified") together with the list
of completion calls the invocation issued. -/
def identify_application (user_input : String) (llm : LLMOutcome) :
    Option AppName × List GenCall :=
  let user_lower := pyLower user_input.toList
  if occursIn "tournament".toList user_lower then (some .tournament, [])
  else if occursIn "matchmaking".toList user_lower then (some .matchmaking, [])
  else if occursIn "chat".toList user_lower then (some .chat, [])
  else
    let call : GenCall := ⟨"llama3.2", classifyPrompt user_input, ⟨0, 10⟩⟩
    match llm with
    | .ok resp =>
      let app_name := keepLowerAlpha (pyLower (pyStrip resp.toList))
      if occursIn "tournament".toList app_name then (some .tournament, [call])
      else if occursIn "matchmaking".toList app_name then (some .matchmaking, [call])
      else if occursIn "chat".toList app_name then (some .chat, [call])
      else (none, [call])
    | .httpError _ => (none, [call])
    | .transportError _ => (none, [call])

/-- Hexadecimal digit character (lowercase, as `json.dumps` emits). -/
def hexCh (n : Nat) : Char :=
  if n < 10 then Char.ofNat (48 + n) else Char.ofNat (87 + n)

/-- Four-digit hexadecimal rendering for `\uXXXX` escapes. -/
def hex4 (n : Nat) : List Char :=
  [hexCh (n / 4096 % 16), hexCh (n / 256 % 16), hexCh (n / 16 % 16), hexCh (n % 16)]

/-- Escaping of one character per `json.dumps` with `ensure_ascii` (escape
control characters and everything above 0x7e). -/
def jEscapeChar (c : Char) : List Char :=
  if c == '"' then ['\\', '"']
  else if c == '\\' then ['\\', '\\']
  else if c == '\n' then ['\\', 'n']
  else if c == '\r' then ['\\', 'r']
  else if c == '\t' then ['\\', 't']
  else if c == '\x08' then ['\\', 'b']
  else if c == '\x0c' then ['\\', 'f']
  else if c.toNat < 32 || c.toNat > 126 then
    if c.toNat ≤ 65535 then '\\' :: 'u' :: hex4 c.toNat
    else
      let v := c.toNat - 65536
      ('\\' :: 'u' :: hex4 (55296 + v / 1024)) ++ ('\\' :: 'u' :: hex4 (56320 + v % 1024))
  else [c]

/-- A JSON string literal per `json.dumps`. -/
def jEscape (s : String) : String :=
  "\"" ++ String.mk (s.toList.foldr (fun c acc => jEscapeChar c ++ acc) []) ++ "\""

/-- Indentation for `json.dumps(v, indent=2)`. -/
def indentStr (lvl : Nat) : String :=
  String.mk (List.replicate (2 * lvl) ' ')

mutual

/-- Serializer modelling `json.dumps(v, indent=2)` at nesting level `lvl`. -/
def jdump (lvl : Nat) : JVal → String
  | .null => "null"
  | .bool true => "true"
  | .bool false => "false"
  | .num n => toString n
  | .str s => jEscape s
  | .arr [] => "[]"
  | .arr (x :: xs) =>
    "[\n" ++ indentStr (lvl + 1) ++ jdump (lvl + 1) x ++ jdumpArr (lvl + 1) xs
      ++ "\n" ++ indentStr lvl ++ "]"
  | .obj [] => "\x7b\x7d"
  | .obj ((k, v) :: fs) =>
    "\x7b\n" ++ indentStr (lvl + 1) ++ jEscape k ++ ": " ++ jdump (lvl + 1) v
      ++ jdumpObj (lvl + 1) fs ++ "\n" ++ indentStr lvl ++ "\x7d"

/-- Remaining array items, each on its own indented line. -/
def jdumpArr (lvl : Nat) : List JVal → String
  | [] => ""
  | x :: xs => ",\n" ++ indentStr lvl ++ jdump lvl x ++ jdumpArr lvl xs

/-- Remaining object members, each on its own indented line. -/
def jdumpObj (lvl : Nat) : List (String × JVal) → String
  | [] => ""
  | (k, v) :: fs => ",\n" ++ indentStr lvl ++ jEscape k ++ ": " ++ jdump lvl v ++ jdumpObj lvl fs

end

/-- Top-level `json.dumps(v, indent=2)`. -/
def jdumps (v : JVal) : String := jdump 0 v

/-- The edit prompt (app.py lines 154-177): the literal user request and the
pretty-printed values and schema documents embedded into the instruction
template. -/
def editPrompt (user_input : String) (schema current_values : JVal) : String :=
  "You are a configuration management assistant. Your task is to modify a JSON configuration based on a user's natural language request.\n\nUser request: \"" ++ user_input ++ "\"\n\nCurrent configuration (JSON):\n" ++ jdumps current_values ++ "\n\nJSON Schema (for validation):\n" ++ jdumps schema ++ "\n\nInstructions:\n1. Understand the user's request and identify what needs to be changed\n2. Apply ONLY the requested change to the current configuration\n3. Keep ALL other fields unchanged\n4. Ensure the modified JSON is valid and follows the schema\n5. Respond with ONLY the complete modified JSON, no explanations or markdown\n\nCommon patterns:\n- \"set X memory to Y\" → modify resources.memory.limitMiB or requestMiB\n- \"set X cpu to Y\" → modify resources.cpu.limitMilliCPU or requestMilliCPU  \n- \"set X env to Y\" → modify envs object\n- \"lower/increase X by Y%\" → calculate new value based on percentage\n\nModified JSON:"

/-- How one extraction attempt fails (app.py lines 198-218): either no brace
pair was located, or the brace slice did not parse; in the latter case the
code retains a 500-character preview of the stripped completion. -/
inductive EditFail where
  | noJsonLocated
  | malformedJson (preview : String)
deriving Repr, DecidableEq

/-- The brace slice of lines 198-202: from the first `'\x7b'` through the
last `'\x7d'` inclusive (`json_response[start_idx:end_idx+1]`), provided
both exist. -/
def braceSlice? (cs : List Char) : Option (List Char) :=
  match findIdxCh '\x7b' cs, rfindIdxCh '\x7d' cs with
  | some i, some j => some ((cs.drop i).take (j + 1 - i))
  | _, _ => none

/-- Extraction of the edited document from a completion (app.py lines
196-218): strip the completion, slice from the first opening brace to the
last closing brace, and parse the slice with `json.loads`. -/
def extractJson (resp : String) : Except EditFail JVal :=
  match braceSlice? (pyStrip resp.toList) with
  | none => .error .noJsonLocated
  | some slice =>
    match jparse (String.mk slice) with
    | .ok v => .ok v
    | .error _ => .error (.malformedJson (String.mk ((pyStrip resp.toList).take 500)))

/-- Embedding of `apply_configuration_change` (app.py lines 142-221):
returns the completion call it issues (prompt built from the documents,
temperature 0.1, `num_predict` 4096) and the extracted document, `None` on
any failure. -/
def apply_configuration_change (user_input : String) (schema current_values : JVal)
    (llm : LLMOutcome) : GenCall × Option JVal :=
  (⟨"llama3.2", editPrompt user_input schema current_values, ⟨1 / 10, 4096⟩⟩,
   match llm with
   | .ok resp =>
     match extractJson resp with
     | .ok v => some v
     | .error _ => none
   | .httpError _ => none
   | .transportError _ => none)

/-- Python truthiness of a JSON value (`if not updated_values`, app.py line
275): null, false, zero, the empty string, the empty array and the empty
object are falsy. -/
def pyTruthy : JVal → Bool
  | .null => false
  | .bool b => b
  | .num n => n != 0
  | .str s => !s.toList.isEmpty
  | .arr xs => !xs.isEmpty
  | .obj fs => !fs.isEmpty

/-- A store's HTTP response: status code and raw body text.  `.json()` on
the body is modelled by `jparse`. -/
structure HttpResp where
  status : Nat
  body : String
deriving Repr, DecidableEq

/-- Outcome oracle for one store lookup: a response, or a raised
`requests.exceptions.RequestException` (unreachable host, timeout). -/
inductive StoreResult where
  | resp (r : HttpResp)
  | unreachable (msg : String)
deriving Repr, DecidableEq

/-- Oracles for all outbound calls one request may make. -/
structure Env where
  classify : LLMOutcome
  schemaStore : StoreResult
  valuesStore : StoreResult
  edit : LLMOutcome
deriving Repr

/-- Which outbound calls a request performed: classification completion
calls, whether each store lookup was issued, and edit completion calls. -/
structure Trace where
  classifyCalls : List GenCall
  schemaCalled : Bool
  valuesCalled : Bool
  editCalls : List GenCall
deriving Repr, DecidableEq

/-- An HTTP response of the orchestrator: status and JSON body (`jsonify`). -/
structure HttpOut where
  status : Nat
  body : JVal
deriving Repr

/-- The 400 body for a missing `input` field (app.py line 240). -/
def missingInputBody : JVal :=
  .obj [("error", .str "Missing \"input\" field in request")]

/-- The 400 body for a failed identification (app.py lines 247-250). -/
def notIdentifiedBody : JVal :=
  .obj [("error", .str "Could not identify application from request"),
        ("hint", .str "Please mention one of: chat, matchmaking, or tournament")]

/-- A 404 body for a failed store fetch (app.py lines 255-258, 265-268). -/
def notFoundBody (what : String) (app_name : AppName) (details : JVal) : JVal :=
  .obj [("error", .str ("Could not fetch " ++ what ++ " for " ++ appStr app_name)),
        ("details", details)]

/-- The 500 body for a failed edit (app.py lines 276-279). -/
def editFailedBody : JVal :=
  .obj [("error", .str "Failed to apply configuration change"),
        ("hint", .str "The LLM could not parse or apply your request")]

/-- The 500 body of the `RequestException` boundary handler (line 284-285). -/
def commErrorBody (msg : String) : JVal :=
  .obj [("error", .str ("Service communication error: " ++ msg))]

/-- The 500 body of the generic exception boundary handler (line 286-287).
An undecodable store body surfaces here: `response.json()` raises, nothing
in the handler catches the decode error before the request boundary, and
the boundary converts it to a 500 error body (whose exact message text
depends on the exception class the HTTP library raises). -/
def internalErrorBody (msg : String) : JVal :=
  .obj [("error", .str ("Internal server error: " ++ msg))]

/-- The edit step of `handle_message` (app.py lines 272-282): invoke
`apply_configuration_change` and map a falsy or missing result to the 500
edit-failure response, a truthy document to the 200 response. -/
def editStep (user_input : String) (schema current_values : JVal) (edit : LLMOutcome)
    (ccalls : List GenCall) : HttpOut × Trace :=
  match apply_configuration_change user_input schema current_values edit with
  | (call, some v) =>
    if pyTruthy v then (⟨200, v⟩, ⟨ccalls, true, true, [call]⟩)
    else (⟨500, editFailedBody⟩, ⟨ccalls, true, true, [call]⟩)
  | (call, none) => (⟨500, editFailedBody⟩, ⟨ccalls, true, true, [call]⟩)

/-- The values fetch of `handle_message` (app.py lines 262-270): a non-200
store response is mapped to 404 with the store's decoded error payload
under `details`; an undecodable body raises and becomes a 500; a transport
failure becomes the communication-error 500. -/
def valuesStep (user_input : String) (app_name : AppName) (schema : JVal)
    (valuesStore : StoreResult) (edit : LLMOutcome) (ccalls : List GenCall) :
    HttpOut × Trace :=
  match valuesStore with
  | .unreachable msg => (⟨500, commErrorBody msg⟩, ⟨ccalls, true, true, []⟩)
  | .resp vr =>
    if vr.status ≠ 200 then
      match jparse vr.body with
      | .ok d => (⟨404, notFoundBody "values" app_name d⟩, ⟨ccalls, true, true, []⟩)
      | .error e => (⟨500, internalErrorBody e⟩, ⟨ccalls, true, true, []⟩)
    else
      match jparse vr.body with
      | .ok current_values => editStep user_input schema current_values edit ccalls
      | .error e => (⟨500, internalErrorBody e⟩, ⟨ccalls, true, true, []⟩)

/-- The schema fetch of `handle_message` (app.py lines 252-260), analogous
to the values fetch; on success the pipeline continues with the values
fetch. -/
def schemaStep (user_input : String) (app_name : AppName) (env : Env)
    (ccalls : List GenCall) : HttpOut × Trace :=
  match env.schemaStore with
  | .unreachable msg => (⟨500, commErrorBody msg⟩, ⟨ccalls, true, false, []⟩)
  | .resp sr =>
    if sr.status ≠ 200 then
      match jparse sr.body with
      | .ok d => (⟨404, notFoundBody "schema" app_name d⟩, ⟨ccalls, true, false, []⟩)
      | .error e => (⟨500, internalErrorBody e⟩, ⟨ccalls, true, false, []⟩)
    else
      match jparse sr.body with
      | .ok schema => valuesStep user_input app_name schema env.valuesStore env.edit ccalls
      | .error e => (⟨500, internalErrorBody e⟩, ⟨ccalls, true, false, []⟩)

/-- Embedding of `handle_message` (app.py lines 223-287).  The request body
is modelled by its optional `input` field; `none` is the missing-field 400.
Returns the HTTP response and the trace of outbound calls. -/
def handle_message (input? : Option String) (env : Env) : HttpOut × Trace :=
  match input? with
  | none => (⟨400, missingInputBody⟩, ⟨[], false, false, []⟩)
  | some user_input =>
    match identify_application user_input env.classify with
    | (none, ccalls) => (⟨400, notIdentifiedBody⟩, ⟨ccalls, false, false, []⟩)
    | (some app_name, ccalls) => schemaStep user_input app_name env ccalls

/-- An element not satisfying the predicate survives `dropWhile`. -/
theorem mem_dropWhile_of_not {p : Char → Bool} {c : Char} :
    ∀ {l : List Char}, c ∈ l → p c = false → c ∈ l.dropWhile p
  | [], h, _ => absurd h (List.not_mem_nil c)
  | a :: l, h, hc => by
    by_cases ha : p a
    · rw [List.dropWhile_cons_of_pos ha]
      rcases List.mem_cons.mp h with rfl | hmem
      · exact absurd ha (by simp [hc])
      · exact mem_dropWhile_of_not hmem hc
    · rw [List.dropWhile_cons_of_neg ha]
      exact h

/-- A non-whitespace character of a string survives `pyStrip`. -/
theorem mem_pyStrip_of_mem {c : Char} {cs : List Char}
    (h : c ∈ cs) (hw : pyWsB c = false) : c ∈ pyStrip cs := by
  unfold pyStrip
  rw [List.mem_reverse]
  exact mem_dropWhile_of_not (List.mem_reverse.mpr (mem_dropWhile_of_not h hw)) hw

/-- `findIdxCh` succeeds on any list containing the character. -/
theorem findIdxCh_isSome_of_mem {x : Char} :
    ∀ {l : List Char}, x ∈ l → (findIdxCh x l).isSome
  | [], h => absurd h (List.not_mem_nil x)
  | c :: l, h => by
    unfold findIdxCh
    by_cases hc : c == x
    · simp [hc]
    · rcases List.mem_cons.mp h with rfl | hmem
      · simp at hc
      · simp only [hc, if_false]
        rcases Option.isSome_iff_exists.mp (findIdxCh_isSome_of_mem hmem) with ⟨i, hi⟩
        simp [hi]

/-- `rfindIdxCh` succeeds on any list containing the character. -/
theorem rfindIdxCh_isSome_of_mem {x : Char} :
    ∀ {l : List Char}, x ∈ l → (rfindIdxCh x l).isSome
  | [], h => absurd h (List.not_mem_nil x)
  | c :: l, h => by
    unfold rfindIdxCh
    rcases hrec : rfindIdxCh x l with _ | i
    · rcases List.mem_cons.mp h with rfl | hmem
      · simp
      · rcases Option.isSome_iff_exists.mp (rfindIdxCh_isSome_of_mem hmem) with ⟨i, hi⟩
        rw [hi] at hrec
        exact absurd hrec (by simp)
    · simp

/-- `findIdxCh` fails on a list not containing the character. -/
theorem findIdxCh_eq_none_of_not_mem {x : Char} :
    ∀ {l : List Char}, x ∉ l → findIdxCh x l = none
  | [], _ => rfl
  | c :: l, h => by
    unfold findIdxCh
    have hcx : (c == x) = false := by
      simp only [beq_eq_false_iff_ne, ne_eq]
      intro hc
      exact h (hc ▸ List.mem_cons_self c l)
    rw [hcx, if_neg (by simp), findIdxCh_eq_none_of_not_mem (fun hm => h (List.mem_cons_of_mem c hm))]
    rfl

/-- `rfindIdxCh` fails on a list not containing the character. -/
theorem rfindIdxCh_eq_none_of_not_mem {x : Char} :
    ∀ {l : List Char}, x ∉ l → rfindIdxCh x l = none
  | [], _ => rfl
  | c :: l, h => by
    unfold rfindIdxCh
    rw [rfindIdxCh_eq_none_of_not_mem (fun hm => h (List.mem_cons_of_mem c hm))]
    have hcx : (c == x) = false := by
      simp only [beq_eq_false_iff_ne, ne_eq]
      intro hc
      exact h (hc ▸ List.mem_cons_self c l)
    simp [hcx]

/-- `braceSlice?` fails when either brace is absent. -/
theorem braceSlice?_eq_none {cs : List Char}
    (h : '\x7b' ∉ cs ∨ '\x7d' ∉ cs) : braceSlice? cs = none := by
  unfold braceSlice?
  rcases h with h | h
  · rw [findIdxCh_eq_none_of_not_mem h]
  · rw [rfindIdxCh_eq_none_of_not_mem h]
    rcases findIdxCh '\x7b' cs with _ | i <;> rfl

/-- C1: for every completion text containing at least one opening and one
closing brace, extraction slices from the first opening brace through the
last closing brace inclusive (the brace slice) and, when the slice is valid
JSON, returns its parse; in particular the completion
`"Here is the result:\n{\"a\":1}\nDone."` extracts to the object with
field `a` mapped to `1`. -/
theorem extract_first_to_last_brace (resp : String)
    (h1 : '\x7b' ∈ resp.toList) (h2 : '\x7d' ∈ resp.toList) :
    (∃ cs, braceSlice? (pyStrip resp.toList) = some cs ∧
      ∀ v, jparse (String.mk cs) = .ok v → extractJson resp = .ok v)
    ∧ extractJson "Here is the result:\n\x7b\"a\":1\x7d\nDone." = .ok (.obj [("a", .num 1)]) := by
  constructor
  · have hb1 : '\x7b' ∈ pyStrip resp.toList := mem_pyStrip_of_mem h1 (by decide)
    have hb2 : '\x7d' ∈ pyStrip resp.toList := mem_pyStrip_of_mem h2 (by decide)
    rcases Option.isSome_iff_exists.mp (findIdxCh_isSome_of_mem hb1) with ⟨i, hi⟩
    rcases Option.isSome_iff_exists.mp (rfindIdxCh_isSome_of_mem hb2) with ⟨j, hj⟩
    have hslice : braceSlice? (pyStrip resp.toList) =
        some (((pyStrip resp.toList).drop i).take (j + 1 - i)) := by
      unfold braceSlice?
      rw [hi, hj]
    refine ⟨((pyStrip resp.toList).drop i).take (j + 1 - i), hslice, ?_⟩
    intro v hv
    unfold extractJson
    rw [hslice]
    simp only [hv]
  · rfl

/-- Closed witness for `extract_first_to_last_brace` at the spec's own
example completion. -/
theorem extract_first_to_last_brace_witness :
    extractJson "Here is the result:\n\x7b\"a\":1\x7d\nDone." = .ok (.obj [("a", .num 1)]) :=
  (extract_first_to_last_brace "Here is the result:\n\x7b\"a\":1\x7d\nDone."
    (by decide) (by decide)).2

/-- Does an extraction result report the malformed-JSON failure? -/
def isMalformedFail : Except EditFail JVal → Bool
  | .error (.malformedJson _) => true
  | _ => false

/-- Counterexample to C2 as stated: the completion `"{ malformed"` contains
no closing brace at all, so the index pair test of app.py line 201 fails
and the code takes the no-JSON-located branch (lines 207-209), not the
malformed-JSON branch; extraction of this completion does not fail with
"malformed JSON". -/
theorem extract_unclosed_brace_not_malformed :
    extractJson "\x7b malformed" = .error .noJsonLocated
    ∧ isMalformedFail (extractJson "\x7b malformed") = false :=
  ⟨rfl, rfl⟩

/-- C2 (amended): extraction failures are reported individually by kind -
a stripped completion lacking an opening or a closing brace fails with
"no JSON located", and a located brace slice that does not parse as JSON
fails with "malformed JSON", retaining a 500-character preview of the
stripped completion; the completion `"{ malformed"` lacks a closing brace
and therefore fails with "no JSON located", while `"{ malformed }"` fails
with "malformed JSON". -/
theorem extract_failure_kinds (resp : String) :
    (('\x7b' ∉ pyStrip resp.toList ∨ '\x7d' ∉ pyStrip resp.toList) →
      extractJson resp = .error .noJsonLocated)
    ∧ (∀ cs e, braceSlice? (pyStrip resp.toList) = some cs →
        jparse (String.mk cs) = .error e →
        extractJson resp = .error (.malformedJson (String.mk ((pyStrip resp.toList).take 500))))
    ∧ extractJson "\x7b malformed" = .error .noJsonLocated
    ∧ isMalformedFail (extractJson "\x7b malformed \x7d") = true := by
  refine ⟨?_, ?_, rfl, rfl⟩
  · intro h
    unfold extractJson
    rw [braceSlice?_eq_none h]
  · intro cs e hcs he
    unfold extractJson
    rw [hcs]
    simp only [he]

/-- Closed witness for `extract_failure_kinds`: the spec's no-brace example
fails with "no JSON located". -/
theorem extract_failure_kinds_witness :
    extractJson "no braces here" = .error .noJsonLocated :=
  (extract_failure_kinds "no braces here").1 (Or.inl (by decide))

/-- A `none` result of the priority match means none of the three keywords
occurs. -/
theorem priorityMatch_none_parts {s : List Char} (h : priorityMatch s = none) :
    occursIn "tournament".toList s = false ∧ occursIn "matchmaking".toList s = false
      ∧ occursIn "chat".toList s = false := by
  unfold priorityMatch at h
  split_ifs at h
  simp_all

/-- C3: whenever any of the three keywords occurs in the lower-cased input,
resolution returns the first match in priority order tournament >
matchmaking > chat with no completion call; in particular an input
containing "tournament" case-insensitively resolves to tournament without
invoking the provider, regardless of other keywords present. -/
theorem identify_keyword_priority_no_provider (input : String) (llm : LLMOutcome) :
    (occursIn "tournament".toList (pyLower input.toList) = true →
      identify_application input llm = (some .tournament, []))
    ∧ (∀ a, priorityMatch (pyLower input.toList) = some a →
      identify_application input llm = (some a, [])) := by
  constructor
  · intro h
    simp only [identify_application]
    rw [h]
    rfl
  · intro a ha
    simp only [identify_application, priorityMatch] at ha ⊢
    split_ifs at ha ⊢ <;> simp_all

/-- Closed witness for `identify_keyword_priority_no_provider`: an input
naming both "TOURNAMENT" and "chat" resolves to tournament with an empty
call list even though the provider oracle would fail. -/
theorem identify_keyword_priority_no_provider_witness :
    identify_application "Please update the TOURNAMENT chat settings"
      (.transportError "connection refused") = (some .tournament, []) :=
  (identify_keyword_priority_no_provider "Please update the TOURNAMENT chat settings"
    (.transportError "connection refused")).1 (by decide)

/-- C4: for an input containing none of the three keywords, resolution
issues exactly one completion call, with temperature 0 and `num_predict`
10, and on a successful call applies the same priority match to the
completion cleaned of every non-lowercase-letter character; a cleaned
string matching no keyword yields the not-identified result. -/
theorem identify_fallback_single_call (input : String) (llm : LLMOutcome)
    (h : priorityMatch (pyLower input.toList) = none) :
    (identify_application input llm).2 = [⟨"llama3.2", classifyPrompt input, ⟨0, 10⟩⟩]
    ∧ (∀ r, llm = .ok r →
      (identify_application input llm).1 =
        priorityMatch (keepLowerAlpha (pyLower (pyStrip r.toList)))) := by
  obtain ⟨h1, h2, h3⟩ := priorityMatch_none_parts h
  constructor
  · simp only [identify_application, h1, h2, h3, Bool.false_eq_true, if_false]
    cases llm with
    | ok r => simp only; split_ifs <;> rfl
    | httpError c => rfl
    | transportError m => rfl
  · intro r hr
    subst hr
    simp only [identify_application, priorityMatch, h1, h2, h3, Bool.false_eq_true, if_false]
    split_ifs <;> rfl

/-- Closed witness for `identify_fallback_single_call`: the keyword-free
input "hello there" issues exactly the zero-temperature ten-token call, and
the completion `" Chat!"` cleans to `"chat"` and resolves to chat. -/
theorem identify_fallback_single_call_witness :
    (identify_application "hello there" (.ok " Chat!")).2 =
      [⟨"llama3.2", classifyPrompt "hello there", ⟨0, 10⟩⟩]
    ∧ (identify_application "hello there" (.ok " Chat!")).1 = some .chat := by
  have h := identify_fallback_single_call "hello there" (.ok " Chat!") (by decide)
  refine ⟨h.1, ?_⟩
  rw [h.2 " Chat!" rfl]
  decide

/-- C8: the edit operation reads the schema and values documents only to
build the prompt of its single completion call; its returned document is
parsed wholly from the completion text and does not depend on either input
document, so in this pure embedding both fetched documents are necessarily
unchanged after the edit step. -/
theorem edit_documents_read_only (u : String) (s v s' v' : JVal)
    (llm : LLMOutcome) (r : String) :
    (apply_configuration_change u s v llm).2 = (apply_configuration_change u s' v' llm).2
    ∧ (apply_configuration_change u s v (.ok r)).2 = (extractJson r).toOption
    ∧ (apply_configuration_change u s v llm).1.prompt = editPrompt u s v := by
  refine ⟨?_, ?_, rfl⟩
  · cases llm <;> rfl
  · cases h : extractJson r <;> simp [apply_configuration_change, h, Except.toOption]

/-- Reduction of `handle_message` once identification is fixed. -/
theorem handle_message_identified (input : String) (env : Env) (app : AppName)
    (ccalls : List GenCall)
    (hid : identify_application input env.classify = (some app, ccalls)) :
    handle_message (some input) env = schemaStep input app env ccalls := by
  simp only [handle_message]
  rw [hid]

/-- A non-200 schema response with a decodable body yields the 404. -/
theorem schemaStep_404 (input : String) (app : AppName) (env : Env)
    (ccalls : List GenCall) (sr : HttpResp) (d : JVal)
    (hs : env.schemaStore = .resp sr) (hne : sr.status ≠ 200)
    (hb : jparse sr.body = .ok d) :
    schemaStep input app env ccalls =
      (⟨404, notFoundBody "schema" app d⟩, ⟨ccalls, true, false, []⟩) := by
  unfold schemaStep
  rw [hs]
  simp only [if_pos hne]
  rw [hb]

/-- A non-200 schema response with an undecodable body yields the 500. -/
theorem schemaStep_500 (input : String) (app : AppName) (env : Env)
    (ccalls : List GenCall) (sr : HttpResp) (e : String)
    (hs : env.schemaStore = .resp sr) (hne : sr.status ≠ 200)
    (hb : jparse sr.body = .error e) :
    schemaStep input app env ccalls =
      (⟨500, internalErrorBody e⟩, ⟨ccalls, true, false, []⟩) := by
  unfold schemaStep
  rw [hs]
  simp only [if_pos hne]
  rw [hb]

/-- A 200 schema response with a decodable body continues with the values
fetch. -/
theorem schemaStep_ok (input : String) (app : AppName) (env : Env)
    (ccalls : List GenCall) (sr : HttpResp) (schema : JVal)
    (hs : env.schemaStore = .resp sr) (h200 : sr.status = 200)
    (hb : jparse sr.body = .ok schema) :
    schemaStep input app env ccalls =
      valuesStep input app schema env.valuesStore env.edit ccalls := by
  unfold schemaStep
  rw [hs]
  simp only [if_neg (show ¬sr.status ≠ 200 by simp [h200])]
  rw [hb]

/-- A non-200 values response with a decodable body yields the 404. -/
theorem valuesStep_404 (input : String) (app : AppName) (schema : JVal)
    (ccalls : List GenCall) (vr : HttpResp) (edit : LLMOutcome) (d : JVal)
    (hne : vr.status ≠ 200) (hb : jparse vr.body = .ok d) :
    valuesStep input app schema (.resp vr) edit ccalls =
      (⟨404, notFoundBody "values" app d⟩, ⟨ccalls, true, true, []⟩) := by
  unfold valuesStep
  simp only [if_pos hne]
  rw [hb]

/-- A non-200 values response with an undecodable body yields the 500. -/
theorem valuesStep_500 (input : String) (app : AppName) (schema : JVal)
    (ccalls : List GenCall) (vr : HttpResp) (edit : LLMOutcome) (e : String)
    (hne : vr.status ≠ 200) (hb : jparse vr.body = .error e) :
    valuesStep input app schema (.resp vr) edit ccalls =
      (⟨500, internalErrorBody e⟩, ⟨ccalls, true, true, []⟩) := by
  unfold valuesStep
  simp only [if_pos hne]
  rw [hb]

/-- A 200 values response with a decodable body continues with the edit. -/
theorem valuesStep_ok (input : String) (app : AppName) (schema : JVal)
    (ccalls : List GenCall) (vr : HttpResp) (edit : LLMOutcome) (vals : JVal)
    (h200 : vr.status = 200) (hb : jparse vr.body = .ok vals) :
    valuesStep input app schema (.resp vr) edit ccalls =
      editStep input schema vals edit ccalls := by
  unfold valuesStep
  simp only [if_neg (show ¬vr.status ≠ 200 by simp [h200])]
  rw [hb]

/-- C5: when the Schema Store answers a resolved identifier with any
non-200 status whose error payload is JSON, `POST /message` answers 404
with a top-level error message and the store payload nested under
`details`, and neither the Values Store lookup nor the provider edit call
is made. -/
theorem schema_fetch_failure_short_circuits (input : String) (env : Env)
    (app : AppName) (sr : HttpResp) (d : JVal)
    (hid : (identify_application input env.classify).1 = some app)
    (hs : env.schemaStore = .resp sr) (hne : sr.status ≠ 200)
    (hb : jparse sr.body = .ok d) :
    (handle_message (some input) env).1 = ⟨404, notFoundBody "schema" app d⟩
    ∧ (handle_message (some input) env).2.valuesCalled = false
    ∧ (handle_message (some input) env).2.editCalls = [] := by
  rcases hI : identify_application input env.classify with ⟨o, cc⟩
  rw [hI] at hid
  simp only at hid
  subst hid
  rw [handle_message_identified input env app cc hI,
    schemaStep_404 input app env cc sr d hs hne hb]
  exact ⟨rfl, rfl, rfl⟩

/-- Closed witness for `schema_fetch_failure_short_circuits`: the Schema
Store's own 404 payload for `chat` is nested under `details` and no later
call happens. -/
theorem schema_fetch_failure_short_circuits_witness :
    (handle_message (some "update chat settings")
        ⟨.transportError "unused",
         .resp ⟨404, "\x7b\"error\": \"Schema not found for application: chat\"\x7d"⟩,
         .resp ⟨200, "\x7b\x7d"⟩, .ok "unused"⟩).1 =
      ⟨404, notFoundBody "schema" .chat
        (.obj [("error", .str "Schema not found for application: chat")])⟩
    ∧ (handle_message (some "update chat settings")
        ⟨.transportError "unused",
         .resp ⟨404, "\x7b\"error\": \"Schema not found for application: chat\"\x7d"⟩,
         .resp ⟨200, "\x7b\x7d"⟩, .ok "unused"⟩).2.valuesCalled = false
    ∧ (handle_message (some "update chat settings")
        ⟨.transportError "unused",
         .resp ⟨404, "\x7b\"error\": \"Schema not found for application: chat\"\x7d"⟩,
         .resp ⟨200, "\x7b\x7d"⟩, .ok "unused"⟩).2.editCalls = [] :=
  schema_fetch_failure_short_circuits "update chat settings"
    ⟨.transportError "unused",
     .resp ⟨404, "\x7b\"error\": \"Schema not found for application: chat\"\x7d"⟩,
     .resp ⟨200, "\x7b\x7d"⟩, .ok "unused"⟩
    .chat ⟨404, "\x7b\"error\": \"Schema not found for application: chat\"\x7d"⟩
    (.obj [("error", .str "Schema not found for application: chat")])
    rfl rfl (by decide) rfl

/-- C6: when the input contains no keyword and the classification
completion call fails at the transport level or with a non-success status,
the request terminates with the 400 could-not-identify response carrying
the hint naming the three identifiers - not with a communication error,
and no exception propagates. -/
theorem classify_failure_reports_not_identified (input : String) (env : Env)
    (hkw : priorityMatch (pyLower input.toList) = none)
    (hfail : ∀ r, env.classify ≠ .ok r) :
    (handle_message (some input) env).1 = ⟨400, notIdentifiedBody⟩ := by
  obtain ⟨h1, h2, h3⟩ := priorityMatch_none_parts hkw
  have hI : ∃ cc, identify_application input env.classify = (none, cc) := by
    simp only [identify_application, h1, h2, h3, Bool.false_eq_true, if_false]
    cases hc : env.classify with
    | ok r => exact absurd hc (hfail r)
    | httpError c => exact ⟨_, rfl⟩
    | transportError m => exact ⟨_, rfl⟩
  rcases hI with ⟨cc, hI⟩
  simp only [handle_message]
  rw [hI]

/-- Closed witness for `classify_failure_reports_not_identified`: a
keyword-free input with an unreachable provider yields the 400
classification-failure response. -/
theorem classify_failure_reports_not_identified_witness :
    (handle_message (some "make it faster")
        ⟨.transportError "connection timed out",
         .resp ⟨200, "\x7b\x7d"⟩, .resp ⟨200, "\x7b\x7d"⟩, .ok "unused"⟩).1 =
      ⟨400, notIdentifiedBody⟩ :=
  classify_failure_reports_not_identified "make it faster"
    ⟨.transportError "connection timed out",
     .resp ⟨200, "\x7b\x7d"⟩, .resp ⟨200, "\x7b\x7d"⟩, .ok "unused"⟩
    (by decide) (fun r h => by cases h)

/-- Reduction of the edit step for a successfully extracted document. -/
theorem editStep_extracted (input : String) (schema vals : JVal) (r : String)
    (v : JVal) (ccalls : List GenCall) (hex : extractJson r = .ok v) :
    editStep input schema vals (.ok r) ccalls =
      (if pyTruthy v then (⟨200, v⟩ : HttpOut) else ⟨500, editFailedBody⟩,
       ⟨ccalls, true, true,
        [⟨"llama3.2", editPrompt input schema vals, ⟨1 / 10, 4096⟩⟩]⟩) := by
  unfold editStep apply_configuration_change
  simp only [hex]
  split_ifs with h <;> rfl

/-- C9: when the brace slice of the edit completion parses to a falsy JSON
value - the empty object, the empty array, null, false, zero or the empty
string - the request answers 500 "Failed to apply configuration change"
rather than 200 with that value; a parsed document becomes the 200
response exactly when it is truthy. -/
theorem falsy_extracted_document_rejected (input : String) (env : Env)
    (app : AppName) (sr vr : HttpResp) (schema vals : JVal) (r : String) (v : JVal)
    (hid : (identify_application input env.classify).1 = some app)
    (hs : env.schemaStore = .resp sr) (hs200 : sr.status = 200)
    (hsb : jparse sr.body = .ok schema)
    (hv : env.valuesStore = .resp vr) (hv200 : vr.status = 200)
    (hvb : jparse vr.body = .ok vals)
    (hedit : env.edit = .ok r) (hex : extractJson r = .ok v) :
    (pyTruthy v = false →
      (handle_message (some input) env).1 = ⟨500, editFailedBody⟩)
    ∧ (pyTruthy v = true → (handle_message (some input) env).1 = ⟨200, v⟩) := by
  rcases hI : identify_application input env.classify with ⟨o, cc⟩
  rw [hI] at hid
  simp only at hid
  subst hid
  rw [handle_message_identified input env app cc hI,
    schemaStep_ok input app env cc sr schema hs hs200 hsb, hv,
    valuesStep_ok input app schema cc vr env.edit vals hv200 hvb, hedit,
    editStep_extracted input schema vals r v cc hex]
  constructor
  · intro hf
    rw [if_neg (by simp [hf])]
  · intro ht
    rw [if_pos ht]

/-- Closed witness for `falsy_extracted_document_rejected`: a completion
carrying the empty object is extracted successfully yet answered with the
500 edit-failure response. -/
theorem falsy_extracted_document_rejected_witness :
    (handle_message (some "reset the chat configuration")
        ⟨.transportError "unused",
         .resp ⟨200, "\x7b\"type\": \"object\"\x7d"⟩,
         .resp ⟨200, "\x7b\"a\": 1\x7d"⟩,
         .ok "Here is the result:\n\x7b\x7d\nDone."⟩).1 = ⟨500, editFailedBody⟩ :=
  (falsy_extracted_document_rejected "reset the chat configuration"
    ⟨.transportError "unused",
     .resp ⟨200, "\x7b\"type\": \"object\"\x7d"⟩,
     .resp ⟨200, "\x7b\"a\": 1\x7d"⟩,
     .ok "Here is the result:\n\x7b\x7d\nDone."⟩
    .chat ⟨200, "\x7b\"type\": \"object\"\x7d"⟩ ⟨200, "\x7b\"a\": 1\x7d"⟩
    (.obj [("type", .str "object")]) (.obj [("a", .num 1)])
    "Here is the result:\n\x7b\x7d\nDone." (.obj [])
    rfl rfl rfl rfl rfl rfl rfl rfl rfl).1 rfl

/-- C10: the 404 not-found mapping for a failed schema or values fetch
exists only when the failing store's non-200 body is itself decodable
JSON; an undecodable body raises while building `details` and the request
answers 500 with an error message instead of 404. -/
theorem not_found_requires_decodable_store_body (input : String) (env : Env)
    (app : AppName) (sr vr : HttpResp) (schema : JVal) (e : String)
    (hid : (identify_application input env.classify).1 = some app) :
    (env.schemaStore = .resp sr → sr.status ≠ 200 → jparse sr.body = .error e →
      (handle_message (some input) env).1 = ⟨500, internalErrorBody e⟩)
    ∧ (env.schemaStore = .resp sr → sr.status = 200 → jparse sr.body = .ok schema →
       env.valuesStore = .resp vr → vr.status ≠ 200 → jparse vr.body = .error e →
      (handle_message (some input) env).1 = ⟨500, internalErrorBody e⟩) := by
  rcases hI : identify_application input env.classify with ⟨o, cc⟩
  rw [hI] at hid
  simp only at hid
  subst hid
  constructor
  · intro hs hne hb
    rw [handle_message_identified input env app cc hI,
      schemaStep_500 input app env cc sr e hs hne hb]
  · intro hs h200 hsb hv hne hb
    rw [handle_message_identified input env app cc hI,
      schemaStep_ok input app env cc sr schema hs h200 hsb, hv,
      valuesStep_500 input app schema cc vr env.edit e hne hb]

/-- Closed witness for `not_found_requires_decodable_store_body`: a schema
store that answers 404 with a non-JSON body produces the 500 response, not
the 404. -/
theorem not_found_requires_decodable_store_body_witness :
    (handle_message (some "update chat settings")
        ⟨.transportError "unused",
         .resp ⟨404, "gateway timeout (plain text)"⟩,
         .resp ⟨200, "\x7b\x7d"⟩, .ok "unused"⟩).1 =
      ⟨500, internalErrorBody "Expecting value"⟩ :=
  (not_found_requires_decodable_store_body "update chat settings"
    ⟨.transportError "unused",
     .resp ⟨404, "gateway timeout (plain text)"⟩,
     .resp ⟨200, "\x7b\x7d"⟩, .ok "unused"⟩
    .chat ⟨404, "gateway timeout (plain text)"⟩ ⟨200, "\x7b\x7d"⟩
    .null "Expecting value" rfl).1 rfl (by decide) rfl

/-- Members of `dropWhile` come from the original list. -/
theorem mem_of_mem_dropWhile {p : Char → Bool} {c : Char} :
    ∀ {l : List Char}, c ∈ l.dropWhile p → c ∈ l
  | [], h => h
  | a :: l, h => by
    by_cases ha : p a
    · rw [List.dropWhile_cons_of_pos ha] at h
      exact List.mem_cons_of_mem a (mem_of_mem_dropWhile h)
    · rwa [List.dropWhile_cons_of_neg ha] at h

/-- `dropWhile` over an append whose right part starts with a character the
predicate rejects stops inside the left part. -/
theorem dropWhile_append_keep (p : Char → Bool) (b : Char) (hb : p b = false) :
    ∀ (A : List Char) (B : List Char), B.head? = some b →
      (A ++ B).dropWhile p = A.dropWhile p ++ B
  | [], B, hB => by
    cases B with
    | nil => cases hB
    | cons x xs =>
      have hx : x = b := by simpa using hB
      subst hx
      have hpb : ¬ p x = true := by simp [hb]
      simp [List.dropWhile_cons_of_neg hpb]
  | a :: A, B, hB => by
    by_cases ha : p a
    · rw [List.cons_append, List.dropWhile_cons_of_pos ha,
        List.dropWhile_cons_of_pos ha, dropWhile_append_keep p b hb A B hB]
    · rw [List.cons_append, List.dropWhile_cons_of_neg ha,
        List.dropWhile_cons_of_neg ha, List.cons_append]

/-- First-index search over an append whose left part lacks the character. -/
theorem findIdxCh_append_of_not_mem (x : Char) :
    ∀ (A R : List Char), x ∉ A →
      findIdxCh x (A ++ R) = (findIdxCh x R).map (fun i => A.length + i)
  | [], R, _ => by
    rw [List.nil_append]
    cases h : findIdxCh x R with
    | none => rfl
    | some i =>
      simp only [Option.map_some', Option.some.injEq, List.length_cons, List.length_nil]
      omega
  | a :: A, R, hA => by
    have hax : (a == x) = false := by
      simp only [beq_eq_false_iff_ne, ne_eq]
      intro hc
      exact hA (hc ▸ List.mem_cons_self a A)
    rw [List.cons_append]
    simp only [findIdxCh, hax, Bool.false_eq_true, if_false]
    rw [findIdxCh_append_of_not_mem x A R (fun hm => hA (List.mem_cons_of_mem a hm))]
    cases h : findIdxCh x R with
    | none => rfl
    | some i =>
      simp only [Option.map_some', Option.some.injEq, List.length_cons, List.length_nil]
      omega

/-- Last-index search distributes over append. -/
theorem rfindIdxCh_append (x : Char) :
    ∀ (L R : List Char),
      rfindIdxCh x (L ++ R) =
        (match rfindIdxCh x R with
         | some i => some (L.length + i)
         | none => rfindIdxCh x L)
  | [], R => by
    rw [List.nil_append]
    cases h : rfindIdxCh x R with
    | none => rfl
    | some i =>
      simp only [Option.map_some', Option.some.injEq, List.length_cons, List.length_nil]
      omega
  | a :: L, R => by
    rw [List.cons_append]
    simp only [rfindIdxCh]
    rw [rfindIdxCh_append x L R]
    cases h : rfindIdxCh x R with
    | none => rfl
    | some i =>
      simp only [Option.map_some', Option.some.injEq, List.length_cons, List.length_nil]
      omega

/-- The last index of the last element is `length - 1`. -/
theorem rfindIdxCh_getLast (x : Char) :
    ∀ (L : List Char), L.getLast? = some x → rfindIdxCh x L = some (L.length - 1)
  | [], h => by cases h
  | [a], h => by
    have hax : a = x := by simpa using h
    subst hax
    simp [rfindIdxCh]
  | a :: b :: t, h => by
    have hbt : (b :: t).getLast? = some x := by
      rwa [List.getLast?_cons_cons] at h
    unfold rfindIdxCh
    rw [rfindIdxCh_getLast x (b :: t) hbt]
    simp

/-- Stripping whitespace from text that wraps a block with non-whitespace
endpoints strips only within the prefix and the suffix. -/
theorem pyStrip_wrap (A S P : List Char)
    (hS1 : S.head? = some '\x7b') (hS2 : S.getLast? = some '\x7d') :
    pyStrip (A ++ S ++ P) =
      A.dropWhile pyWsB ++ S ++ (P.reverse.dropWhile pyWsB).reverse := by
  have hSP : (S ++ P).head? = some '\x7b' := by
    cases S with
    | nil => cases hS1
    | cons c t => simpa using hS1
  have h1 : (A ++ S ++ P).dropWhile pyWsB = A.dropWhile pyWsB ++ (S ++ P) := by
    rw [List.append_assoc]
    exact dropWhile_append_keep pyWsB '\x7b' (by decide) A (S ++ P) hSP
  have hSrevHead : (S.reverse ++ (A.dropWhile pyWsB).reverse).head? = some '\x7d' := by
    have hrev : S.reverse.head? = some '\x7d' := by
      rw [List.head?_reverse]
      exact hS2
    cases hr : S.reverse with
    | nil => rw [hr] at hrev; cases hrev
    | cons c t => rw [hr] at hrev; simpa using hrev
  have h2 : (P.reverse ++ (S.reverse ++ (A.dropWhile pyWsB).reverse)).dropWhile pyWsB
      = P.reverse.dropWhile pyWsB ++ (S.reverse ++ (A.dropWhile pyWsB).reverse) :=
    dropWhile_append_keep pyWsB '\x7d' (by decide) _ _ hSrevHead
  unfold pyStrip
  rw [h1]
  have hrev : (A.dropWhile pyWsB ++ (S ++ P)).reverse
      = P.reverse ++ (S.reverse ++ (A.dropWhile pyWsB).reverse) := by
    simp [List.reverse_append, List.append_assoc]
  rw [hrev, h2]
  simp [List.reverse_append, List.reverse_reverse, List.append_assoc]

/-- The brace slice when both indices are found. -/
theorem braceSlice?_eq_take_drop (cs : List Char) (i j : Nat)
    (hi : findIdxCh '\x7b' cs = some i) (hj : rfindIdxCh '\x7d' cs = some j) :
    braceSlice? cs = some ((cs.drop i).take (j + 1 - i)) := by
  unfold braceSlice?
  rw [hi, hj]

/-- Extraction succeeds once the brace slice parses. -/
theorem extractJson_of_slice_ok (resp : String) (cs : List Char) (v : JVal)
    (hcs : braceSlice? (pyStrip resp.toList) = some cs)
    (hv : jparse (String.mk cs) = .ok v) :
    extractJson resp = .ok v := by
  unfold extractJson
  rw [hcs]
  simp only [hv]

/-- Extraction recovers the exact JSON block from a completion wrapping it
in prose, provided the prefix prose has no opening brace, the suffix prose
has no closing brace, and the block itself is brace-delimited and parses. -/
theorem extract_of_wrapped (pre s post : String) (v : JVal)
    (hpre : '\x7b' ∉ pre.toList) (hpost : '\x7d' ∉ post.toList)
    (hhead : s.toList.head? = some '\x7b') (hlast : s.toList.getLast? = some '\x7d')
    (hp : jparse s = .ok v) :
    extractJson (pre ++ s ++ post) = .ok v := by
  have hdata : (pre ++ s ++ post).toList = pre.toList ++ s.toList ++ post.toList := by
    show (pre ++ s ++ post).data = pre.data ++ s.data ++ post.data
    rw [String.data_append, String.data_append]
  have hstrip : pyStrip ((pre ++ s ++ post).toList) =
      pre.toList.dropWhile pyWsB ++ s.toList ++ (post.toList.reverse.dropWhile pyWsB).reverse := by
    rw [hdata]
    exact pyStrip_wrap pre.toList s.toList post.toList hhead hlast
  have hA : '\x7b' ∉ pre.toList.dropWhile pyWsB :=
    fun hm => hpre (mem_of_mem_dropWhile hm)
  have hP : '\x7d' ∉ (post.toList.reverse.dropWhile pyWsB).reverse :=
    fun hm => hpost (List.mem_reverse.mp (mem_of_mem_dropWhile (List.mem_reverse.mp hm)))
  have hfind : findIdxCh '\x7b'
      (pre.toList.dropWhile pyWsB ++ s.toList ++ (post.toList.reverse.dropWhile pyWsB).reverse) =
      some (pre.toList.dropWhile pyWsB).length := by
    rw [List.append_assoc,
      findIdxCh_append_of_not_mem '\x7b' (pre.toList.dropWhile pyWsB) _ hA]
    cases hcs : s.toList with
    | nil => rw [hcs] at hhead; cases hhead
    | cons c t =>
      have hc : c = '\x7b' := by rw [hcs] at hhead; simpa using hhead
      subst hc
      simp [findIdxCh]
  have hrfind : rfindIdxCh '\x7d'
      (pre.toList.dropWhile pyWsB ++ s.toList ++ (post.toList.reverse.dropWhile pyWsB).reverse) =
      some ((pre.toList.dropWhile pyWsB).length + (s.toList.length - 1)) := by
    rw [rfindIdxCh_append '\x7d' (pre.toList.dropWhile pyWsB ++ s.toList) _,
      rfindIdxCh_eq_none_of_not_mem hP,
      rfindIdxCh_append '\x7d' (pre.toList.dropWhile pyWsB) s.toList,
      rfindIdxCh_getLast '\x7d' s.toList hlast]
  have hslen : 1 ≤ s.toList.length := by
    cases hcs : s.toList with
    | nil => rw [hcs] at hhead; cases hhead
    | cons c t => simp
  have harith : (pre.toList.dropWhile pyWsB).length + (s.toList.length - 1) + 1
      - (pre.toList.dropWhile pyWsB).length = s.toList.length := by omega
  have hslice : braceSlice? (pyStrip ((pre ++ s ++ post).toList)) = some s.toList := by
    rw [hstrip, braceSlice?_eq_take_drop _ _ _ hfind hrfind, harith,
      List.append_assoc, List.drop_left, List.take_left]
  exact extractJson_of_slice_ok (pre ++ s ++ post) s.toList v hslice
    (by rw [show String.mk s.toList = s from rfl]; exact hp)

/-- Counterexample to C7 as stated: a request that reaches the edit step
with the empty object as its Values Document, whose completion is exactly
that document serialized and wrapped in the spec's own prose, is answered
500 "Failed to apply configuration change" (the parsed empty object is
falsy under `if not updated_values`, app.py line 275), not 200 with the
document. -/
theorem roundtrip_fails_on_falsy_document :
    (handle_message (some "reset chat")
        ⟨.transportError "unused",
         .resp ⟨200, "\x7b\"type\": \"object\"\x7d"⟩,
         .resp ⟨200, "\x7b\x7d"⟩,
         .ok ("Here is the result:\n" ++ "\x7b\x7d" ++ "\nDone.")⟩).1.status = 500
    ∧ (handle_message (some "reset chat")
        ⟨.transportError "unused",
         .resp ⟨200, "\x7b\"type\": \"object\"\x7d"⟩,
         .resp ⟨200, "\x7b\x7d"⟩,
         .ok ("Here is the result:\n" ++ "\x7b\x7d" ++ "\nDone.")⟩).1.body = editFailedBody :=
  ⟨rfl, rfl⟩

/-- C7 (amended): for every request reaching the edit step whose Values
Document is a non-empty (hence truthy) JSON object, if the completion is
exactly a JSON serialization of that document surrounded by prose with no
opening brace before the document and no closing brace after it, then
`POST /message` answers 200 with exactly that document, no field altered.
(The braces restriction on the prose is what the extraction heuristic
requires; the empty object instead produces the 500 edit-failure
response.) -/
theorem roundtrip_truthy_document (input : String) (env : Env) (app : AppName)
    (sr vr : HttpResp) (schema : JVal) (fields : List (String × JVal))
    (pre s post : String)
    (hid : (identify_application input env.classify).1 = some app)
    (hs : env.schemaStore = .resp sr) (hs200 : sr.status = 200)
    (hsb : jparse sr.body = .ok schema)
    (hv : env.valuesStore = .resp vr) (hv200 : vr.status = 200)
    (hvb : jparse vr.body = .ok (.obj fields)) (hne : fields ≠ [])
    (hedit : env.edit = .ok (pre ++ s ++ post))
    (hsp : jparse s = .ok (.obj fields))
    (hpre : '\x7b' ∉ pre.toList) (hpost : '\x7d' ∉ post.toList)
    (hhead : s.toList.head? = some '\x7b') (hlast : s.toList.getLast? = some '\x7d') :
    (handle_message (some input) env).1 = ⟨200, .obj fields⟩ := by
  have hex : extractJson (pre ++ s ++ post) = .ok (.obj fields) :=
    extract_of_wrapped pre s post (.obj fields) hpre hpost hhead hlast hsp
  have htr : pyTruthy (.obj fields) = true := by
    cases fields with
    | nil => exact absurd rfl hne
    | cons f t => rfl
  rcases hI : identify_application input env.classify with ⟨o, cc⟩
  rw [hI] at hid
  simp only at hid
  subst hid
  rw [handle_message_identified input env app cc hI,
    schemaStep_ok input app env cc sr schema hs hs200 hsb, hv,
    valuesStep_ok input app schema cc vr env.edit (.obj fields) hv200 hvb, hedit,
    editStep_extracted input schema (.obj fields) (pre ++ s ++ post) (.obj fields) cc hex,
    if_pos htr]

/-- Closed witness for `roundtrip_truthy_document`: the completion echoing
the one-field values document inside prose is returned verbatim with
status 200. -/
theorem roundtrip_truthy_document_witness :
    (handle_message (some "set chat memory to 512")
        ⟨.transportError "unused",
         .resp ⟨200, "\x7b\"type\": \"object\"\x7d"⟩,
         .resp ⟨200, "\x7b\"a\": 1\x7d"⟩,
         .ok ("Here is the result:\n" ++ "\x7b\"a\":1\x7d" ++ "\nDone.")⟩).1 =
      ⟨200, .obj [("a", .num 1)]⟩ :=
  roundtrip_truthy_document "set chat memory to 512"
    ⟨.transportError "unused",
     .resp ⟨200, "\x7b\"type\": \"object\"\x7d"⟩,
     .resp ⟨200, "\x7b\"a\": 1\x7d"⟩,
     .ok ("Here is the result:\n" ++ "\x7b\"a\":1\x7d" ++ "\nDone.")⟩
    .chat ⟨200, "\x7b\"type\": \"object\"\x7d"⟩ ⟨200, "\x7b\"a\": 1\x7d"⟩
    (.obj [("type", .str "object")]) [("a", .num 1)]
    "Here is the result:\n" "\x7b\"a\":1\x7d" "\nDone."
    rfl rfl rfl rfl rfl rfl rfl (List.cons_ne_nil _ _) rfl rfl
    (by decide) (by decide) rfl rfl
